import Mathlib

/-!
Verification development for `share/hybrid/gpu-manager.c` of ubuntu-drivers-common.

The C program is shallowly embedded: pure helpers become Lean functions over
`List Char` (C strings) and `Nat`/`Int` (C unsigned/int); the filesystem and
the other external collaborators (modprobe/rmmod, DRM queries, PCI
enumeration) are abstracted into explicit environment records whose fields
supply the results the C code would obtain from them, and effectful functions
return an explicit list of performed actions next to their C return value.

Conventions used throughout:
* C strings are `List Char`; a file's content is a `List Char` and an absent
  file is `none : Option (List Char)`.
* `unsigned int` fields are `Nat`, `int` fields that can be negative are
  `Int`.  Arithmetic in the program never comes close to wrap-around, so no
  modular reduction is inserted.
* `printf`/`sscanf` are modelled only as far as the format directives the
  program uses (`%x` with zero-padded minimum width on output and maximum
  width on input, `%d`, literal characters); on input, `%x` is modelled for
  plain hex-digit sequences (no `0x` prefix or sign), which is the only shape
  this program ever feeds it.
-/

namespace GpuManager

/-- ASCII decimal digit test (`'0'..'9'`), as accepted by `sscanf`'s `%d`. -/
def isDigitC (c : Char) : Bool := 48 ≤ c.toNat && c.toNat ≤ 57

/-- ASCII hex digit test, as accepted by `sscanf`'s `%x`. -/
def isHexDigitC (c : Char) : Bool :=
  isDigitC c || (97 ≤ c.toNat && c.toNat ≤ 102) || (65 ≤ c.toNat && c.toNat ≤ 70)

/-- C `isspace`: space, `\t`, `\n`, `\v`, `\f`, `\r`. -/
def isSpaceC (c : Char) : Bool := c.toNat = 32 || (9 ≤ c.toNat && c.toNat ≤ 13)

/-- Numeric value of a (hex) digit character. -/
def charVal (c : Char) : Nat :=
  if isDigitC c then c.toNat - 48
  else if 97 ≤ c.toNat then c.toNat - 87
  else c.toNat - 55

/-- Minimal base-`b` digit string of `n`, most significant digit first
(empty for `n = 0`); the first argument is fuel, `natDigits` supplies it. -/
def digitsBE (b : Nat) : Nat → Nat → List Char
  | 0, _ => []
  | fuel + 1, n => if n = 0 then [] else digitsBE b fuel (n / b) ++ [Nat.digitChar (n % b)]

/-- Minimal base-`b` digit string of `n` (empty for `n = 0`). -/
def natDigits (b n : Nat) : List Char := digitsBE b n n

/-- The low `w` hex digits of `n`, most significant first: for `n < 16 ^ w`
this is exactly the zero-padded width-`w` rendering of `n`. -/
def hexBE : Nat → Nat → List Char
  | 0, _ => []
  | w + 1, n => Nat.digitChar (n / 16 ^ w % 16) :: hexBE w n

/-- `printf "%0wx"`: zero-padded to a minimum width of `w`, full minimal
digit string when `n` needs more than `w` digits. -/
def printfHex (w n : Nat) : List Char :=
  if n < 16 ^ w then hexBE w n else natDigits 16 n

/-- `printf "%u"`-style rendering of a nonnegative value (used for `%d` on
values known to be nonnegative). -/
def printfUDec (n : Nat) : List Char := if n = 0 then ['0'] else natDigits 10 n

/-- `printf "%d"` of an `int`. -/
def printfInt (i : Int) : List Char :=
  if i < 0 then '-' :: printfUDec i.natAbs else printfUDec i.toNat

/-- Consume up to `w` leading hex digits, MSB first, into an accumulator:
the core of `sscanf`'s width-limited `%x`. -/
def parseHexCore : Nat → Nat → List Char → Nat × List Char
  | 0, acc, s => (acc, s)
  | _ + 1, acc, [] => (acc, [])
  | w + 1, acc, c :: rest =>
    if isHexDigitC c then parseHexCore w (acc * 16 + charVal c) rest else (acc, c :: rest)

/-- `sscanf` `%wx` (width-limited hex conversion): skip whitespace, then
require at least one hex digit and consume at most `w` of them. -/
def pHex (w : Nat) (s : List Char) : Option (Nat × List Char) :=
  match s.dropWhile isSpaceC with
  | [] => none
  | c :: r => if isHexDigitC c then some (parseHexCore w 0 (c :: r)) else none

/-- Consume leading decimal digits into an accumulator (no width limit). -/
def parseDecCore : List Char → Nat → Nat × List Char
  | [], acc => (acc, [])
  | c :: rest, acc =>
    if isDigitC c then parseDecCore rest (acc * 10 + charVal c) else (acc, c :: rest)

/-- `sscanf` `%d`: skip whitespace, optional sign, at least one digit. -/
def pDec (s : List Char) : Option (Int × List Char) :=
  match s.dropWhile isSpaceC with
  | [] => none
  | c :: r =>
    if c = '-' then
      match r with
      | [] => none
      | c2 :: r2 =>
        if isDigitC c2 then
          let p := parseDecCore r2 (charVal c2)
          some (-(p.1 : Int), p.2)
        else none
    else if c = '+' then
      match r with
      | [] => none
      | c2 :: r2 =>
        if isDigitC c2 then
          let p := parseDecCore r2 (charVal c2)
          some ((p.1 : Int), p.2)
        else none
    else if isDigitC c then
      let p := parseDecCore r (charVal c)
      some ((p.1 : Int), p.2)
    else none

/-- `sscanf` literal (non-whitespace) character directive. -/
def pLit (c : Char) (s : List Char) : Option (List Char) :=
  match s with
  | [] => none
  | c' :: rest => if c' = c then some rest else none

/-- A run of literal characters in a format string. -/
def pStr : List Char → List Char → Option (List Char)
  | [], s => some s
  | _ :: _, [] => none
  | l :: ls, c :: cs => if c = l then pStr ls cs else none

/-! ### The data model: `struct device` and `struct gpus`

`struct gpus` is a fixed array of at most `MAX_NR_CARDS` owned pointers
together with `nr_cards`; it is embedded as a `List Device` whose length is
`nr_cards`.  `boot_vga` and `has_connected_outputs` are C `int`s (the latter
a tri-state `-1/0/1`), the remaining fields `unsigned int`. -/

/-- One GPU record, `struct device` of gpu-manager.c. -/
structure Device where
  boot_vga : Int
  vendor_id : Nat
  device_id : Nat
  domain : Nat
  bus : Nat
  dev : Nat
  func : Nat
  has_connected_outputs : Int
deriving DecidableEq, Repr

/-- `MAX_NR_CARDS` of gpu-manager.c. -/
def MAX_NR_CARDS : Nat := 10

/-- Vendor id constants of the `vendor` enum. -/
def AMD_ID : Nat := 0x1002
def INTEL_ID : Nat := 0x8086
def NVIDIA_ID : Nat := 0x10DE

/-- The per-position comparison done inside `has_system_changed`'s loop:
all persisted fields, deliberately excluding `has_connected_outputs`. -/
def devDiffers (a b : Device) : Bool :=
  a.boot_vga != b.boot_vga || a.vendor_id != b.vendor_id ||
  a.device_id != b.device_id || a.domain != b.domain ||
  a.bus != b.bus || a.dev != b.dev || a.func != b.func

/-- `has_system_changed`: true when the card counts differ, otherwise true
when some position differs in a persisted field. -/
def has_system_changed (prev current : List Device) : Bool :=
  if prev.length != current.length then true
  else (prev.zip current).any fun p => devDiffers p.1 p.2

/-- `get_boot_vga`: the first card whose `boot_vga` field is truthy. -/
def get_boot_vga (gpus : List Device) : Option Device :=
  gpus.find? fun d => d.boot_vga != 0

/-- `get_first_discrete`: the first card whose `boot_vga` field is zero. -/
def get_first_discrete (gpus : List Device) : Option Device :=
  gpus.find? fun d => d.boot_vga == 0

/-! ### State persistence: `write_data_to_file` / `read_data_from_file`

The persisted format is one line per device,
`%04x:%04x;%04x:%02x:%02x:%d;%d\n` over
(vendor, device, domain, bus, dev, func, boot_vga). -/

/-- The line `write_data_to_file` prints for one device. -/
def deviceLine (d : Device) : List Char :=
  printfHex 4 d.vendor_id ++ ':' ::
    (printfHex 4 d.device_id ++ ';' ::
      (printfHex 4 d.domain ++ ':' ::
        (printfHex 2 d.bus ++ ':' ::
          (printfHex 2 d.dev ++ ':' ::
            (printfUDec d.func ++ ';' ::
              (printfInt d.boot_vga ++ ['\n']))))))

/-- `write_data_to_file`, as the content written (the C function truncates
the file and writes every card's line; it only fails if the open fails,
which is outside the model). -/
def write_data_to_file (gpus : List Device) : List Char :=
  (gpus.map deviceLine).flatten

/-- `get_vars`: `sscanf(line, "%04x:%04x;%04x:%02x:%02x:%d;%d\n", ...)`,
succeeding only when all 7 conversions succeed (`desired_matches`).
`func` is an `unsigned int` in the struct but scanned with `%d`; the model
stores the nonnegative value (no claim exercises a negative here).
`has_connected_outputs` is left uninitialized by the C code and never read
on records built here; the model fixes it to 0. -/
def get_vars (line : List Char) : Option Device := do
  let (v, s1) ← pHex 4 line
  let s2 ← pLit ':' s1
  let (di, s3) ← pHex 4 s2
  let s4 ← pLit ';' s3
  let (dom, s5) ← pHex 4 s4
  let s6 ← pLit ':' s5
  let (b, s7) ← pHex 2 s6
  let s8 ← pLit ':' s7
  let (dv, s9) ← pHex 2 s8
  let s10 ← pLit ':' s9
  let (f, s11) ← pDec s10
  let s12 ← pLit ';' s11
  let (bv, _) ← pDec s12
  pure ⟨bv, v, di, dom, b, dv, f.toNat, 0⟩

/-- One `fgets(line, 100, file)` call on remaining content `s`: take up to
99 characters, stopping after a newline.  Returns (chunk, rest). -/
def fgetsTake : Nat → List Char → List Char × List Char
  | 0, s => ([], s)
  | _ + 1, [] => ([], [])
  | n + 1, c :: rest =>
    if c = '\n' then ([c], rest)
    else
      let p := fgetsTake n rest
      (c :: p.1, p.2)

/-- Iterated `fgets` with a 100-byte buffer; the first argument is fuel
(each chunk consumes at least one character, so `s.length` suffices). -/
def fgetsChunksGo : Nat → List Char → List (List Char)
  | _, [] => []
  | 0, _ => []
  | fuel + 1, s =>
    let p := fgetsTake 99 s
    p.1 :: fgetsChunksGo fuel p.2

/-- All the chunks `fgets(line, 100, file)` yields on content `s`. -/
def fgetsChunks (s : List Char) : List (List Char) := fgetsChunksGo s.length s

/-- The read loop of `read_data_from_file`: `while (fgets(...) &&
(gpus->nr_cards < MAX_NR_CARDS))`, appending each line that parses. -/
def readLoop : List (List Char) → List Device → List Device
  | [], acc => acc
  | l :: ls, acc =>
    if acc.length < MAX_NR_CARDS then
      if 0 < l.length then
        match get_vars l with
        | some d => readLoop ls (acc ++ [d])
        | none => readLoop ls acc
      else readLoop ls acc
    else acc

/-- The all-zero sentinel device produced by parsing the sentinel line. -/
def zeroDevice : Device := ⟨0, 0, 0, 0, 0, 0, 0, 0⟩

/-- The sentinel line `read_data_from_file` writes on first use:
`fprintf(file, "%04x:%04x;%04x:%02x:%02x:%d;%d\n", 0, 0, 0, 0, 0, 0, 0)`. -/
def zeroLine : List Char := deviceLine zeroDevice

/-- `read_data_from_file` over an optional file content.  Result: the C
return status (1 = loaded, 2 = created for the first time; the open/write
failures that return 0 are filesystem errors outside the model), the parsed
inventory, and the file's content afterwards. -/
def read_data_from_file : Option (List Char) → Nat × List Device × List Char
  | some s => (1, readLoop (fgetsChunks s) [], s)
  | none => (2, readLoop (fgetsChunks zeroLine) [], zeroLine)

/-! ### Disabled-card marker files: `add_gpu_from_file` / `find_disabled_cards` -/

/-- The name parsing of `add_gpu_from_file`:
`sscanf(filename, "<dirname>/u-d-c-gpu-%04x:%02x:%02x.%d-0x%04x-0x%04x", ...)`
matching domain, bus, dev, func, vendor, device (`desired_matches = 6`).
The C code leaves `boot_vga` uninitialized on these records (the model fixes
it to 0) and sets `has_connected_outputs = -1`. -/
def parse_marker (dirname filename : List Char) : Option Device := do
  let s0 ← pStr (dirname ++ '/' :: "u-d-c-gpu-".toList) filename
  let (dom, s1) ← pHex 4 s0
  let s2 ← pLit ':' s1
  let (b, s3) ← pHex 2 s2
  let s4 ← pLit ':' s3
  let (dv, s5) ← pHex 2 s4
  let s6 ← pLit '.' s5
  let (f, s7) ← pDec s6
  let s8 ← pStr "-0x".toList s7
  let (v, s9) ← pHex 4 s8
  let s10 ← pStr "-0x".toList s9
  let (di, _) ← pHex 4 s10
  pure ⟨0, v, di, dom, b, dv, f.toNat, -1⟩

/-- `add_gpu_from_file`: append the parsed device — the C code performs
`gpus->cards[gpus->nr_cards] = dev; gpus->nr_cards += 1;` with NO
`MAX_NR_CARDS` bound check. -/
def add_gpu_from_file (filename dirname : List Char) (gpus : List Device) : List Device :=
  match parse_marker dirname filename with
  | none => gpus
  | some d => gpus ++ [d]

/-- `find_disabled_cards`: for every directory entry starting with
`u-d-c-gpu-` (and whose full path fits in `PATH_MAX = 4096`), run
`add_gpu_from_file` on `dir/entry`. -/
def find_disabled_cards (dir : List Char) (entries : List (List Char))
    (gpus : List Device) : List Device :=
  entries.foldl
    (fun acc e =>
      if "u-d-c-gpu-".toList.isPrefixOf e then
        if 4096 < dir.length + e.length + 2 then acc
        else add_gpu_from_file (dir ++ '/' :: e) dir acc
      else acc)
    gpus

/-! ### Live enumeration: `get_current_devices` -/

/-- The already-typed facts libpciaccess yields for one PCI function,
plus the sysfs-derived passthrough test. -/
structure PciInfo where
  device_class : Nat
  vendor_id : Nat
  device_id : Nat
  domain : Nat
  bus : Nat
  dev : Nat
  func : Nat
  boot_vga : Bool
  passthrough : Bool
deriving DecidableEq, Repr

/-- `is_display_controller`: class byte `0x03`. -/
def is_display_controller (p : PciInfo) : Bool :=
  (p.device_class / 2 ^ 16) % 256 = 3

/-- Per-driver connectivity probe results consumed by `get_current_devices`
(each a tri-state `-1/0/1` from `has_driver_connected_outputs`). -/
structure OutputsFacts where
  amdgpu_has_outputs : Int
  radeon_has_outputs : Int
  nouveau_has_outputs : Int
  intel_has_outputs : Int

/-- The device record `get_current_devices` builds for one PCI function. -/
def mkLiveDevice (o : OutputsFacts) (p : PciInfo) : Device :=
  { boot_vga := if p.boot_vga then 1 else 0
    vendor_id := p.vendor_id
    device_id := p.device_id
    domain := p.domain
    bus := p.bus
    dev := p.dev
    func := p.func
    has_connected_outputs :=
      if p.vendor_id = AMD_ID then
        if o.radeon_has_outputs != -1 then o.radeon_has_outputs else o.amdgpu_has_outputs
      else if p.vendor_id = INTEL_ID then o.intel_has_outputs
      else if p.vendor_id = NVIDIA_ID then o.nouveau_has_outputs
      else -1 }

/-- The iteration loop of `get_current_devices`: filter display
controllers, skip pci-passthrough devices, and stop (break) as soon as the
inventory already holds `MAX_NR_CARDS` cards. -/
def get_current_devices (o : OutputsFacts) : List PciInfo → List Device → List Device
  | [], acc => acc
  | p :: ps, acc =>
    if is_display_controller p then
      if p.passthrough then get_current_devices o ps acc
      else if MAX_NR_CARDS ≤ acc.length then acc
      else get_current_devices o ps (acc ++ [mkLiveDevice o p])
    else get_current_devices o ps acc

/-- `requires_offloading`: the boot-VGA device exists, reports connected
outputs (`== 1`), and is Intel. -/
def requires_offloading (gpus : List Device) : Bool :=
  match get_boot_vga gpus with
  | none => false
  | some d => d.has_connected_outputs == 1 && d.vendor_id == INTEL_ID

/-! ### PRIME settings: `istrstr` / `get_prime_action` -/

/-- C `toupper` on ASCII. -/
def upChar (c : Char) : Char :=
  if 97 ≤ c.toNat && c.toNat ≤ 122 then Char.ofNat (c.toNat - 32) else c

/-- `strstr(s, pat) != NULL`: case-sensitive substring test. -/
def strstrB : List Char → List Char → Bool
  | [], pat => pat.isEmpty
  | c :: t, pat => pat.isPrefixOf (c :: t) || strstrB t pat

/-- `istrstr(line, pat) != NULL`: case-insensitive substring test. -/
def containsI (line pat : List Char) : Bool :=
  strstrB (line.map upChar) (pat.map upChar)

/-- The three PRIME modes (`prime_mode_settings`). -/
inductive PrimeMode
  | ON
  | OFF
  | ONDEMAND
deriving DecidableEq, Repr

/-- `get_prime_action` on a file content: every branch of the read loop
breaks, so only the first `fgets` chunk (buffer 100) is inspected; an empty
file (no line at all) leaves the initial `OFF`. -/
def get_prime_action (s : List Char) : PrimeMode :=
  if s.isEmpty then PrimeMode.OFF
  else
    let line := (fgetsTake 99 s).1
    if containsI line "on-demand".toList then PrimeMode.ONDEMAND
    else if containsI line "on".toList then PrimeMode.ON
    else PrimeMode.OFF

/-- `exists_not_empty`: false when the file is absent or empty. -/
def exists_not_empty : Option (List Char) → Bool
  | none => false
  | some s => !s.isEmpty

/-! ### Module lifecycle: `act_upon_module_with_params` / `unload_nvidia` -/

/-- The externally visible actions the policy code performs.  Power
management acts on the single device passed into `enable_prime`, so the
events carry no device argument. -/
inductive Action
  | createSettings
  | createPrimeOutputclass
  | createOffloadServerlayout
  | removePrimeOutputclass
  | removeOffloadServerlayout
  | unload (m : String)
  | load (m : String)
  | kill
  | enablePM
  | disablePM
deriving DecidableEq, Repr

/-- Results of the external module commands: `modprobe`/`rmmod` exit
status per module name, plus the `dry_run` flag under which
`act_upon_module_with_params` performs nothing and reports success. -/
structure ModuleEnv where
  dryRun : Bool
  unloadOk : String → Bool
  loadOk : String → Bool

/-- `act_upon_module_with_params` (mode true = load): one external action;
in dry-run mode it is never performed and reports success. -/
def act_upon_module (env : ModuleEnv) (m : String) (mode : Bool) : List Action × Bool :=
  ([if mode then Action.load m else Action.unload m],
   if env.dryRun then true else if mode then env.loadOk m else env.unloadOk m)

/-- `unload_module`. -/
def unload_module (env : ModuleEnv) (m : String) : List Action × Bool :=
  act_upon_module env m false

/-- `unload_nvidia`: unload `nvidia-drm`, `nvidia-uvm`, `nvidia-modeset`
(results discarded), then return the result of unloading `nvidia`. -/
def unload_nvidia (env : ModuleEnv) : List Action × Bool :=
  let a := unload_module env "nvidia-drm"
  let b := unload_module env "nvidia-uvm"
  let c := unload_module env "nvidia-modeset"
  let d := unload_module env "nvidia"
  (a.1 ++ b.1 ++ c.1 ++ d.1, d.2)

/-! ### `enable_prime` and the unload/kill reclaim protocol

The off-branch's `goto unload_again` loop is embedded as two explicitly
unrolled passes (`tries` is 0 on the first pass and 1 on the second; the
goto is taken only after incrementing `tries`, so there are at most two).
External results are supplied by oracles indexed by call number:
`loadedSeq k` is the result of the (k+1)-th `is_module_loaded("nvidia")`
call inside the chosen branch, `unloadSeq k` the result of the (k+1)-th
`unload_nvidia` base-module unload. -/

/-- The world `enable_prime` runs against. -/
structure PrimeEnv where
  settings : Option (List Char)
  createOk : Bool
  dryRun : Bool
  loadedSeq : Nat → Bool
  unloadSeq : Nat → Bool
  killOk : Bool

/-- Result of the k-th `unload_nvidia` call (its return value is the base
`nvidia` unload's result; in dry-run every unload reports success). -/
def primeUnloadResult (env : PrimeEnv) (k : Nat) : Bool :=
  if env.dryRun then true else env.unloadSeq k

/-- Result of `kill_main_display_session` (in dry-run the body is skipped
and `status` stays 0, so it reports success). -/
def primeKillResult (env : PrimeEnv) : Bool :=
  if env.dryRun then true else env.killOk

/-- The trace `unload_nvidia` contributes. -/
def unloadNvidiaEvents : List Action :=
  [Action.unload "nvidia-drm", Action.unload "nvidia-uvm",
   Action.unload "nvidia-modeset", Action.unload "nvidia"]

/-- The second pass of the off-branch loop (`tries = 1`): on a persistent
failure it gives up and returns false WITHOUT reaching
`enable_power_management`. `c`/`u` are the oracle indices on entry. -/
def offPass2 (env : PrimeEnv) (c u : Nat) : List Action × Bool :=
  if env.loadedSeq c then
    if primeUnloadResult env u then (unloadNvidiaEvents ++ [Action.enablePM], true)
    else if env.loadedSeq (c + 1) then (unloadNvidiaEvents, false)
    else (unloadNvidiaEvents ++ [Action.enablePM], true)
  else ([Action.enablePM], true)

/-- The first pass of the off-branch loop (`tries = 0`): on failure it
kills the display session and, if the kill succeeded, retries once. -/
def offPass1 (env : PrimeEnv) (c u : Nat) : List Action × Bool :=
  if env.loadedSeq c then
    if primeUnloadResult env u then (unloadNvidiaEvents ++ [Action.enablePM], true)
    else if env.loadedSeq (c + 1) then
      if primeKillResult env then
        let p := offPass2 env (c + 2) (u + 1)
        (unloadNvidiaEvents ++ Action.kill :: p.1, p.2)
      else (unloadNvidiaEvents ++ [Action.kill, Action.enablePM], true)
    else (unloadNvidiaEvents ++ [Action.enablePM], true)
  else ([Action.enablePM], true)

/-- The part of `enable_prime` after the settings file is known to exist,
reading the mode from content `s` and running the selected branch. -/
def enablePrimeWithSettings (env : PrimeEnv) (s : List Char) : List Action × Bool :=
  match get_prime_action s with
  | PrimeMode.ON =>
    ([Action.createPrimeOutputclass, Action.removeOffloadServerlayout,
      Action.disablePM] ++
      (if env.loadedSeq 0 then [] else [Action.load "nvidia"]), true)
  | PrimeMode.ONDEMAND =>
    ([Action.createOffloadServerlayout, Action.removePrimeOutputclass,
      Action.enablePM] ++
      (if env.loadedSeq 0 then [] else [Action.load "nvidia"]), true)
  | PrimeMode.OFF =>
    let p := offPass1 env 0 0
    (Action.removePrimeOutputclass :: Action.removeOffloadServerlayout :: p.1, p.2)

/-- `enable_prime`: ensure the settings file exists and is non-empty
(creating it with content `on\n` otherwise), read the mode, then run the
selected branch.  Returns the performed actions and the C return value. -/
def enable_prime (env : PrimeEnv) : List Action × Bool :=
  if exists_not_empty env.settings then
    enablePrimeWithSettings env (env.settings.getD [])
  else if env.createOk then
    let p := enablePrimeWithSettings env ("on\n".toList)
    (Action.createSettings :: p.1, p.2)
  else ([Action.createSettings], false)

/-! ### Output connectivity prober -/

/-- The first whitespace token of a line, as `strtok(line, " \t")` yields
it (leading delimiters skipped; `strtok` returning NULL on an all-delimiter
line is modelled as the empty token, on which `starts_with` is false). -/
def firstTok (l : List Char) : List Char :=
  (l.dropWhile fun c => c = ' ' || c = '\t').takeWhile fun c => !(c = ' ' || c = '\t')

/-- `is_connector_connected` over the connector status file's lines: some
line's first token starts with `connected`. -/
def is_connector_connected (lines : List (List Char)) : Bool :=
  lines.any fun l => "connected".toList.isPrefixOf (firstTok l)

/-- One `/sys/class/drm` entry: its name and its status file's lines. -/
structure ConnectorEnt where
  name : List Char
  statusLines : List (List Char)

/-- One `/dev/dri` card node: its entry name and the driver name
`drmGetVersion` reports for it. -/
structure DrmCard where
  name : List Char
  versionName : List Char

/-- The DRM world `has_driver_connected_outputs` runs against. -/
structure DrmEnv where
  driCards : List DrmCard
  drmEntries : List ConnectorEnt

/-- `count_connected_outputs`: count the `/sys/class/drm` entries whose
name starts with the device name and whose status file reports connected. -/
def count_connected_outputs (env : DrmEnv) (device_name : List Char) : Nat :=
  (env.drmEntries.filter fun e =>
    device_name.isPrefixOf e.name && is_connector_connected e.statusLines).length

/-- The per-node test of `has_driver_connected_outputs`'s loop: the entry
name starts with `card` and the driver identity contains the requested
driver name as a (case-sensitive) substring. -/
def matchesDriver (driver : List Char) (c : DrmCard) : Bool :=
  "card".toList.isPrefixOf c.name && strstrB c.versionName driver

/-- `has_driver_connected_outputs`: `-1` (unknown) when no node matches,
otherwise whether the first matching node's connector count is positive.
(The open/`drmGetVersion`/malloc failure paths are outside the model.) -/
def has_driver_connected_outputs (env : DrmEnv) (driver : List Char) : Int :=
  match env.driCards.find? (matchesDriver driver) with
  | none => -1
  | some c => if 0 < count_connected_outputs env c.name then 1 else 0

/-! ### The decision flow of `main`

Only the part from device acquisition to branch dispatch is modelled (flag
collection, logging and CLI parsing are external).  Events record the
externally visible steps in program order; log-only branches contribute no
event. -/

/-- Events of one `main` run. -/
inductive MEvent
  | unlinkOffloading
  | readLast
  | writeNewBoot (inv : List Device)
  | findDisabled
  | enablePrime
  | setOffloading
  | amdProPxReset
  | amdProPxPowersaving
  | removeServerLayout
deriving DecidableEq, Repr

/-- The facts `main` consumes. -/
structure MainEnv where
  /-- `some content?` when `--fake-lspci` was given (with the fake file's
  optional content), `none` for live enumeration. -/
  fakeLspci : Option (Option (List Char))
  /-- Live enumeration result; `none` models `get_current_devices` failing
  (bus init failure / OOM aborts the run). Used only when `fakeLspci = none`. -/
  liveDevices : Option (List Device)
  fakeOffloading : Bool
  lastBoot : Option (List Char)
  writeOk : Bool
  dryRun : Bool
  nvidiaUnloaded : Bool
  nvidiaLoaded : Bool
  intelLoaded : Bool
  nouveauLoaded : Bool
  nvidiaKmodAvailable : Bool
  amdgpuLoaded : Bool
  amdgpuIsPro : Bool
  amdgpuProPxInstalled : Bool
  gpuDetectionPath : List Char
  markerEntries : List (List Char)
  primeOk : Bool

/-- The current inventory and offloading flag `main` computes: from the
fake lspci file (connectivity forced to `-1`, offloading faked) or from
live enumeration (`requires_offloading`). -/
def currentOf (env : MainEnv) : Option (List Device × Bool) :=
  match env.fakeLspci with
  | some content =>
    some (((read_data_from_file content).2.1).map
            (fun d => { d with has_connected_outputs := -1 }),
          env.fakeOffloading)
  | none =>
    match env.liveDevices with
    | none => none
    | some ds => some (ds, requires_offloading ds)

/-- The branch-dispatch part of one `main` run, after the current data has
been written to the new-boot file: `old` is the previously-persisted
inventory, `cur` the current one, `offloading` the offloading flag. -/
def mainTail (env : MainEnv) (cur : List Device) (offloading : Bool) : List MEvent :=
  if !env.writeOk then [] else
    let old := (read_data_from_file env.lastBoot).2.1
    let hasChanged := has_system_changed old cur
    match get_boot_vga cur with
    | none => []
    | some bootDev =>
      if cur.length = 1 then
        if bootDev.vendor_id = INTEL_ID then
          if offloading && env.nvidiaUnloaded then
            MEvent.findDisabled ::
              (let merged :=
                find_disabled_cards env.gpuDetectionPath env.markerEntries cur
               match get_first_discrete merged with
               | none => []
               | some _ =>
                 MEvent.enablePrime ::
                   (if env.primeOk then [MEvent.setOffloading] else []))
          else []
        else if bootDev.vendor_id = AMD_ID then
          if hasChanged && env.amdgpuLoaded && env.amdgpuIsPro &&
              env.amdgpuProPxInstalled then [MEvent.amdProPxReset]
          else []
        else if bootDev.vendor_id = NVIDIA_ID then [MEvent.removeServerLayout]
        else []
      else if 1 < cur.length then
        match get_first_discrete cur with
        | none => []
        | some _ =>
          if bootDev.vendor_id = INTEL_ID then
            if hasChanged && env.amdgpuLoaded && env.amdgpuIsPro &&
                env.amdgpuProPxInstalled then [MEvent.amdProPxPowersaving]
            else if offloading && (env.intelLoaded && !env.nouveauLoaded &&
                (env.nvidiaLoaded || env.nvidiaKmodAvailable)) then
              MEvent.enablePrime ::
                (if env.primeOk then [MEvent.setOffloading] else [])
            else []
          else []
      else []

/-- The event trace of one `main` run (device acquisition onwards). -/
def mainEvents (env : MainEnv) : List MEvent :=
  match currentOf env with
  | none => []
  | some (cur, offloading) =>
    (if !offloading && !env.dryRun then [MEvent.unlinkOffloading] else []) ++
    MEvent.readLast :: MEvent.writeNewBoot cur :: mainTail env cur offloading

/-! ### Derived notions used by the statements -/

/-- The persisted fields of a device, i.e. everything
`has_system_changed` compares and `write_data_to_file` writes:
(boot_vga, vendor, device, domain, bus, dev, func). -/
def persistedTuple (d : Device) : Int × Nat × Nat × Nat × Nat × Nat × Nat :=
  (d.boot_vga, d.vendor_id, d.device_id, d.domain, d.bus, d.dev, d.func)

/-- `rest` does not start with a decimal digit (so an unbounded `%d` or
digit run stops exactly at the seam). -/
def headNotDec : List Char → Prop
  | [] => True
  | c :: _ => isDigitC c = false

/-- The device record that persisting and re-reading `d` yields: all
persisted fields kept, `has_connected_outputs` replaced by the model's
default 0 (the C reader leaves that field uninitialized and no caller ever
reads it on such records). -/
def persistDevice (d : Device) : Device :=
  ⟨d.boot_vga, d.vendor_id, d.device_id, d.domain, d.bus, d.dev, d.func, 0⟩

/-- `deviceLine` without its final newline. -/
def deviceBody (d : Device) : List Char :=
  printfHex 4 d.vendor_id ++ ':' ::
    (printfHex 4 d.device_id ++ ';' ::
      (printfHex 4 d.domain ++ ':' ::
        (printfHex 2 d.bus ++ ':' ::
          (printfHex 2 d.dev ++ ':' ::
            (printfUDec d.func ++ ';' :: printfInt d.boot_vga)))))

/-- The field bounds under which one persisted line survives the
write/read round trip: the hex fields fit their printed widths and the
whole line fits the reader's 100-byte `fgets` buffer. -/
def RoundTripSafe (d : Device) : Prop :=
  d.vendor_id < 16 ^ 4 ∧ d.device_id < 16 ^ 4 ∧ d.domain < 16 ^ 4 ∧
  d.bus < 16 ^ 2 ∧ d.dev < 16 ^ 2 ∧ (deviceLine d).length ≤ 99

instance (d : Device) : Decidable (RoundTripSafe d) := by
  unfold RoundTripSafe
  exact inferInstance

/-
=====================================================================
Theorems
=====================================================================
-/

/-! ### Digit-level facts -/

theorem digitChar_hex : ∀ m < 16, isHexDigitC (Nat.digitChar m) = true ∧
    charVal (Nat.digitChar m) = m := by decide

theorem digitChar_dec : ∀ m < 10, isDigitC (Nat.digitChar m) = true ∧
    charVal (Nat.digitChar m) = m := by decide

theorem hex_not_space {c : Char} (h : isHexDigitC c = true) : isSpaceC c = false := by
  simp only [isHexDigitC, isDigitC, isSpaceC, Bool.or_eq_true, Bool.and_eq_true,
    decide_eq_true_eq, Bool.or_eq_false_iff, Bool.and_eq_false_iff,
    decide_eq_false_iff_not] at h ⊢
  omega

theorem dec_isHex {c : Char} (h : isDigitC c = true) : isHexDigitC c = true := by
  simp [isHexDigitC, h]

theorem dec_ne_dash {c : Char} (h : isDigitC c = true) : c ≠ '-' := by
  intro he; subst he; simp [isDigitC] at h

theorem dec_ne_plus {c : Char} (h : isDigitC c = true) : c ≠ '+' := by
  intro he; subst he; simp [isDigitC] at h

theorem hex_ne_newline {c : Char} (h : isHexDigitC c = true) : c ≠ '\n' := by
  intro he; subst he; simp [isHexDigitC, isDigitC] at h

/-! ### Hex printing and parsing -/

theorem hexBE_length (w n : Nat) : (hexBE w n).length = w := by
  induction w generalizing n with
  | zero => rfl
  | succ v ih => simp [hexBE, ih]

theorem hexBE_all_hex (w n : Nat) : ∀ c ∈ hexBE w n, isHexDigitC c = true := by
  induction w generalizing n with
  | zero => intro c hc; simp [hexBE] at hc
  | succ v ih =>
    intro c hc
    simp only [hexBE, List.mem_cons] at hc
    rcases hc with h | h
    · subst h; exact (digitChar_hex _ (Nat.mod_lt _ (by norm_num))).1
    · exact ih n c h

theorem hexBE_snoc (w n : Nat) :
    hexBE (w + 1) n = hexBE w (n / 16) ++ [Nat.digitChar (n % 16)] := by
  induction w generalizing n with
  | zero => simp [hexBE]
  | succ v ih =>
    have hdd : n / 16 / 16 ^ v = n / 16 ^ (v + 1) := by
      rw [Nat.div_div_eq_div_mul, pow_succ']
    calc hexBE (v + 2) n
        = Nat.digitChar (n / 16 ^ (v + 1) % 16) :: hexBE (v + 1) n := rfl
      _ = Nat.digitChar (n / 16 ^ (v + 1) % 16) ::
            (hexBE v (n / 16) ++ [Nat.digitChar (n % 16)]) := by rw [ih]
      _ = hexBE (v + 1) (n / 16) ++ [Nat.digitChar (n % 16)] := by
            simp [hexBE, hdd]

theorem hexBE_foldl (w n : Nat) (h : n < 16 ^ w) :
    (hexBE w n).foldl (fun a c => a * 16 + charVal c) 0 = n := by
  induction w generalizing n with
  | zero =>
    have : n = 0 := by simpa using h
    simp [this, hexBE]
  | succ v ih =>
    have hdiv : n / 16 < 16 ^ v := by
      rw [Nat.div_lt_iff_lt_mul (by norm_num : (0:Nat) < 16)]
      rw [pow_succ] at h
      exact h
    rw [hexBE_snoc, List.foldl_append, ih _ hdiv]
    simp only [List.foldl_cons, List.foldl_nil]
    rw [(digitChar_hex _ (Nat.mod_lt _ (by norm_num))).2]
    omega

theorem parseHexCore_digits (ds : List Char) (hds : ∀ c ∈ ds, isHexDigitC c = true)
    (acc : Nat) (rest : List Char) :
    parseHexCore ds.length acc (ds ++ rest) =
      (ds.foldl (fun a c => a * 16 + charVal c) acc, rest) := by
  induction ds generalizing acc with
  | nil => rfl
  | cons c tl ih =>
    simp only [List.length_cons, List.cons_append, parseHexCore,
      hds c (List.mem_cons_self c tl), if_true, List.foldl_cons]
    exact ih (fun x hx => hds x (List.mem_cons_of_mem c hx)) _

theorem pHex_printfHex (w n : Nat) (rest : List Char) (hw : 0 < w) (h : n < 16 ^ w) :
    pHex w (printfHex w n ++ rest) = some (n, rest) := by
  obtain ⟨v, rfl⟩ : ∃ v, w = v + 1 := ⟨w - 1, by omega⟩
  have hpr : printfHex (v + 1) n = hexBE (v + 1) n := by simp [printfHex, h]
  rw [hpr]
  have hhd : hexBE (v + 1) n = Nat.digitChar (n / 16 ^ v % 16) :: hexBE v n := rfl
  have hdig : isHexDigitC (Nat.digitChar (n / 16 ^ v % 16)) = true :=
    (digitChar_hex _ (Nat.mod_lt _ (by norm_num))).1
  rw [hhd]
  simp only [pHex, List.cons_append, List.dropWhile_cons, hex_not_space hdig,
    Bool.false_eq_true, if_false, hdig, if_true]
  have := parseHexCore_digits (hexBE (v + 1) n) (hexBE_all_hex _ _) 0 rest
  rw [hexBE_length] at this
  rw [hhd] at this
  simp only [List.cons_append] at this
  rw [this]
  have hfold := hexBE_foldl (v + 1) n h
  rw [hhd] at hfold
  simp only [List.foldl_cons, Nat.zero_mul, Nat.zero_add] at hfold ⊢
  rw [hfold]

/-! ### Decimal printing and parsing -/

theorem digitsBE10_all (fuel : Nat) : ∀ n ≤ fuel, ∀ c ∈ digitsBE 10 fuel n,
    isDigitC c = true := by
  induction fuel with
  | zero => intro n hn c hc; simp [digitsBE] at hc
  | succ f ih =>
    intro n hn c hc
    by_cases h0 : n = 0
    · simp [digitsBE, h0] at hc
    · simp only [digitsBE, h0, if_false, List.mem_append, List.mem_singleton] at hc
      rcases hc with h | h
      · have hdiv : n / 10 ≤ f := by
          have := Nat.div_lt_self (Nat.pos_of_ne_zero h0) (by norm_num : 1 < 10)
          omega
        exact ih (n / 10) hdiv c h
      · subst h; exact (digitChar_dec _ (Nat.mod_lt _ (by norm_num))).1

theorem digitsBE10_foldl (fuel : Nat) : ∀ n ≤ fuel,
    (digitsBE 10 fuel n).foldl (fun a c => a * 10 + charVal c) 0 = n := by
  induction fuel with
  | zero =>
    intro n hn
    have : n = 0 := by omega
    simp [this, digitsBE]
  | succ f ih =>
    intro n hn
    by_cases h0 : n = 0
    · simp [digitsBE, h0]
    · have hdiv : n / 10 ≤ f := by
        have := Nat.div_lt_self (Nat.pos_of_ne_zero h0) (by norm_num : 1 < 10)
        omega
      simp only [digitsBE, h0, if_false]
      rw [List.foldl_append, ih _ hdiv]
      simp only [List.foldl_cons, List.foldl_nil]
      rw [(digitChar_dec _ (Nat.mod_lt _ (by norm_num))).2]
      omega

theorem digitsBE10_ne_nil (fuel n : Nat) (hn : n ≤ fuel) (h0 : n ≠ 0) :
    digitsBE 10 fuel n ≠ [] := by
  cases fuel with
  | zero => omega
  | succ f => simp [digitsBE, h0]

theorem printfUDec_all (n : Nat) : ∀ c ∈ printfUDec n, isDigitC c = true := by
  intro c hc
  by_cases h0 : n = 0
  · simp [printfUDec, h0] at hc; subst hc; decide
  · simp only [printfUDec, h0, if_false] at hc
    exact digitsBE10_all n n le_rfl c hc

theorem printfUDec_foldl (n : Nat) :
    (printfUDec n).foldl (fun a c => a * 10 + charVal c) 0 = n := by
  by_cases h0 : n = 0
  · simp [printfUDec, h0]; decide
  · simp only [printfUDec, h0, if_false]
    exact digitsBE10_foldl n n le_rfl

theorem printfUDec_ne_nil (n : Nat) : printfUDec n ≠ [] := by
  by_cases h0 : n = 0
  · simp [printfUDec, h0]
  · simp only [printfUDec, h0, if_false]
    exact digitsBE10_ne_nil n n le_rfl h0

theorem parseDecCore_digits (ds : List Char) (hds : ∀ c ∈ ds, isDigitC c = true)
    (acc : Nat) (rest : List Char) (hrest : headNotDec rest) :
    parseDecCore (ds ++ rest) acc =
      (ds.foldl (fun a c => a * 10 + charVal c) acc, rest) := by
  induction ds generalizing acc with
  | nil =>
    cases rest with
    | nil => rfl
    | cons c r =>
      simp only [headNotDec] at hrest
      simp [parseDecCore, hrest]
  | cons c tl ih =>
    simp only [List.cons_append, parseDecCore, hds c (List.mem_cons_self c tl), if_true,
      List.foldl_cons]
    exact ih (fun x hx => hds x (List.mem_cons_of_mem c hx)) _

theorem printfUDec_parse (n : Nat) (rest : List Char) (hrest : headNotDec rest)
    (c : Char) (ds : List Char) (hpu : printfUDec n = c :: ds) :
    parseDecCore (ds ++ rest) (charVal c) = (n, rest) := by
  have hall := printfUDec_all n
  rw [hpu] at hall
  have := parseDecCore_digits ds (fun x hx => hall x (List.mem_cons_of_mem c hx))
    (charVal c) rest hrest
  rw [this]
  have hfold := printfUDec_foldl n
  rw [hpu] at hfold
  simp only [List.foldl_cons, Nat.zero_mul, Nat.zero_add] at hfold
  rw [hfold]

theorem pDec_printfUDec (n : Nat) (rest : List Char) (hrest : headNotDec rest) :
    pDec (printfUDec n ++ rest) = some ((n : Int), rest) := by
  cases hpu : printfUDec n with
  | nil => exact absurd hpu (printfUDec_ne_nil n)
  | cons c ds =>
    have hc : isDigitC c = true := printfUDec_all n c (by rw [hpu]; exact List.mem_cons_self c ds)
    simp only [hpu, List.cons_append, pDec, List.dropWhile_cons,
      hex_not_space (dec_isHex hc), Bool.false_eq_true, if_false,
      dec_ne_dash hc, dec_ne_plus hc, hc, if_true]
    rw [printfUDec_parse n rest hrest c ds hpu]

theorem pDec_printfInt (i : Int) (rest : List Char) (hrest : headNotDec rest) :
    pDec (printfInt i ++ rest) = some (i, rest) := by
  by_cases hneg : i < 0
  · simp only [printfInt, hneg, if_true]
    cases hpu : printfUDec i.natAbs with
    | nil => exact absurd hpu (printfUDec_ne_nil _)
    | cons c ds =>
      have hc : isDigitC c = true := printfUDec_all _ c (by rw [hpu]; exact List.mem_cons_self c ds)
      have hsp : isSpaceC '-' = false := by decide
      simp only [hpu, List.cons_append, pDec, List.dropWhile_cons, hsp,
        Bool.false_eq_true, if_false, if_true, hc,
        printfUDec_parse i.natAbs rest hrest c ds hpu]
      have hna : (-((i.natAbs : Nat) : Int)) = i := by omega
      rw [hna]
  · simp only [printfInt, hneg, if_false]
    rw [pDec_printfUDec _ rest hrest]
    have ht : ((i.toNat : Int)) = i := Int.toNat_of_nonneg (by omega)
    rw [ht]

theorem devDiffers_eq (a b : Device) :
    devDiffers a b = decide (persistedTuple a ≠ persistedTuple b) := by
  simp only [devDiffers, persistedTuple, ne_eq, Prod.mk.injEq, decide_not]
  by_cases h1 : a.boot_vga = b.boot_vga <;>
    by_cases h2 : a.vendor_id = b.vendor_id <;>
    by_cases h3 : a.device_id = b.device_id <;>
    by_cases h4 : a.domain = b.domain <;>
    by_cases h5 : a.bus = b.bus <;>
    by_cases h6 : a.dev = b.dev <;>
    by_cases h7 : a.func = b.func <;>
    simp [h1, h2, h3, h4, h5, h6, h7, bne_iff_ne]

theorem zip_any_congr (l1 l2 l1' l2' : List Device)
    (h1 : l1.map persistedTuple = l1'.map persistedTuple)
    (h2 : l2.map persistedTuple = l2'.map persistedTuple) :
    ((l1.zip l2).any fun p => devDiffers p.1 p.2) =
      ((l1'.zip l2').any fun p => devDiffers p.1 p.2) := by
  induction l1 generalizing l1' l2 l2' with
  | nil =>
    cases l1' with
    | nil =>
      cases l2 <;> cases l2' <;> simp [List.zip]
    | cons a t => simp at h1
  | cons a t ih =>
    cases l1' with
    | nil => simp at h1
    | cons a' t' =>
      simp only [List.map_cons, List.cons.injEq] at h1
      cases l2 with
      | nil =>
        cases l2' with
        | nil => simp [List.zip]
        | cons b' s' => simp at h2
      | cons b s =>
        cases l2' with
        | nil => simp at h2
        | cons b' s' =>
          simp only [List.map_cons, List.cons.injEq] at h2
          simp only [List.zip_cons_cons, List.any_cons]
          rw [ih s t' s' h1.2 h2.2, devDiffers_eq, devDiffers_eq, h1.1, h2.1]

/-- C1: `has_system_changed` is true when the card counts differ;
with equal counts it is true exactly when some position differs in a
persisted field (boot-vga, vendor, device id, or a bus-address component);
and it depends only on the persisted fields, never on
`has_connected_outputs`. -/
theorem C1_has_system_changed_spec (prev curr : List Device) :
    (prev.length ≠ curr.length → has_system_changed prev curr = true) ∧
    (prev.length = curr.length →
      (has_system_changed prev curr = true ↔
        ∃ i, ∃ _ : i < prev.length, ∃ _ : i < curr.length,
          persistedTuple prev[i] ≠ persistedTuple curr[i])) ∧
    (∀ prev' curr',
      prev.map persistedTuple = prev'.map persistedTuple →
      curr.map persistedTuple = curr'.map persistedTuple →
      has_system_changed prev curr = has_system_changed prev' curr') := by
  refine ⟨?_, ?_, ?_⟩
  · intro h
    simp [has_system_changed, h]
  · intro h
    simp only [has_system_changed, h, bne_self_eq_false, Bool.false_eq_true, if_false,
      List.any_eq_true]
    constructor
    · rintro ⟨p, hp, hd⟩
      rw [List.mem_iff_getElem] at hp
      obtain ⟨i, hiz, hgi⟩ := hp
      have hi2 : i < curr.length := by
        rw [List.length_zip, h, Nat.min_self] at hiz; exact hiz
      refine ⟨i, by omega, hi2, ?_⟩
      subst hgi
      simp only [List.getElem_zip, devDiffers_eq, decide_eq_true_eq] at hd
      exact hd
    · rintro ⟨i, hi1, hi2, hne⟩
      refine ⟨(prev[i], curr[i]), ?_, ?_⟩
      · rw [List.mem_iff_getElem]
        refine ⟨i, by rw [List.length_zip, h, Nat.min_self]; exact hi2, ?_⟩
        exact List.getElem_zip
      · rw [devDiffers_eq, decide_eq_true_eq]
        exact hne
  · intro prev' curr' h1 h2
    have hl1 : prev.length = prev'.length := by
      have := congrArg List.length h1
      simpa using this
    have hl2 : curr.length = curr'.length := by
      have := congrArg List.length h2
      simpa using this
    simp only [has_system_changed, hl1, hl2, zip_any_congr prev curr prev' curr' h1 h2]

/-- Witness for C1 at concrete inventories: differing lengths give
`true`; a connectivity-only difference gives `false`. -/
theorem C1_witness :
    has_system_changed [⟨1, 2, 3, 4, 5, 6, 7, 0⟩] [] = true ∧
    has_system_changed [⟨1, 2, 3, 4, 5, 6, 7, 99⟩] [⟨1, 2, 3, 4, 5, 6, 7, -1⟩] = false := by
  constructor
  · exact (C1_has_system_changed_spec [⟨1, 2, 3, 4, 5, 6, 7, 0⟩] []).1 (by decide)
  · have h := ((C1_has_system_changed_spec
      [⟨1, 2, 3, 4, 5, 6, 7, 99⟩] [⟨1, 2, 3, 4, 5, 6, 7, -1⟩]).2.1 (by decide))
    by_cases hb : has_system_changed
        [⟨1, 2, 3, 4, 5, 6, 7, 99⟩] [⟨1, 2, 3, 4, 5, 6, 7, -1⟩] = false
    · exact hb
    · exfalso
      rw [Bool.not_eq_false] at hb
      obtain ⟨i, hi1, hi2, hne⟩ := h.mp hb
      have hi0 : i = 0 := by simp at hi1; omega
      subst hi0
      simp only [List.getElem_cons_zero] at hne
      exact hne (by decide)

/-! ### Parsing one written line -/

theorem pLit_cons (c : Char) (rest : List Char) : pLit c (c :: rest) = some rest := by
  simp [pLit]

theorem get_vars_deviceLine (d : Device)
    (h1 : d.vendor_id < 16 ^ 4) (h2 : d.device_id < 16 ^ 4) (h3 : d.domain < 16 ^ 4)
    (h4 : d.bus < 16 ^ 2) (h5 : d.dev < 16 ^ 2) :
    get_vars (deviceLine d) = some (persistDevice d) := by
  have hsemi : headNotDec (';' ::
      (printfInt d.boot_vga ++ ['\n'])) := by
    show isDigitC ';' = false
    decide
  have hnl : headNotDec (['\n'] : List Char) := by
    show isDigitC '\n' = false
    decide
  simp only [get_vars, deviceLine,
    pHex_printfHex 4 d.vendor_id _ (by norm_num) h1,
    pHex_printfHex 4 d.device_id _ (by norm_num) h2,
    pHex_printfHex 4 d.domain _ (by norm_num) h3,
    pHex_printfHex 2 d.bus _ (by norm_num) h4,
    pHex_printfHex 2 d.dev _ (by norm_num) h5,
    pDec_printfUDec d.func _ hsemi,
    pDec_printfInt d.boot_vga _ hnl,
    pLit_cons, Option.bind_eq_bind, Option.some_bind]
  simp [persistDevice]

/-! ### `fgets` chunking of the written file -/

theorem fgetsTake_rest_le (n : Nat) (s : List Char) :
    (fgetsTake n s).2.length ≤ s.length := by
  induction n generalizing s with
  | zero => simp [fgetsTake]
  | succ m ih =>
    cases s with
    | nil => simp [fgetsTake]
    | cons c t =>
      simp only [fgetsTake]
      by_cases hc : c = '\n'
      · simp [hc]
      · simp only [hc, if_false]
        calc (fgetsTake m t).2.length ≤ t.length := ih t
          _ ≤ (c :: t).length := by simp

theorem fgetsTake_line (n : Nat) (body rest : List Char) (hlen : body.length + 1 ≤ n)
    (hnl : ∀ c ∈ body, c ≠ '\n') :
    fgetsTake n (body ++ '\n' :: rest) = (body ++ ['\n'], rest) := by
  induction body generalizing n with
  | nil =>
    obtain ⟨m, rfl⟩ : ∃ m, n = m + 1 := ⟨n - 1, by omega⟩
    simp [fgetsTake]
  | cons c t ih =>
    obtain ⟨m, rfl⟩ : ∃ m, n = m + 1 := ⟨n - 1, by omega⟩
    have hc : c ≠ '\n' := hnl c (List.mem_cons_self c t)
    simp only [List.cons_append, fgetsTake, hc, if_false]
    have harr : t.append ('\n' :: rest) = t ++ '\n' :: rest := rfl
    rw [harr, ih m (by simp at hlen; omega) (fun x hx => hnl x (List.mem_cons_of_mem c hx))]

theorem fgetsChunksGo_fuel (fuel : Nat) : ∀ s : List Char, s.length ≤ fuel →
    fgetsChunksGo fuel s = fgetsChunks s := by
  induction fuel using Nat.strong_induction_on with
  | _ fuel ih =>
    intro s hs
    cases s with
    | nil =>
      cases fuel <;> simp [fgetsChunksGo, fgetsChunks]
    | cons c t =>
      obtain ⟨m, rfl⟩ : ∃ m, fuel = m + 1 := ⟨fuel - 1, by simp at hs; omega⟩
      have hrest : (fgetsTake 99 (c :: t)).2.length ≤ t.length := by
        simp only [fgetsTake]
        by_cases hc : c = '\n'
        · simp [hc]
        · simp only [hc, if_false]
          exact fgetsTake_rest_le 98 t
      have hlen : (c :: t).length = t.length + 1 := by simp
      rw [show fgetsChunksGo (m + 1) (c :: t) =
        (fgetsTake 99 (c :: t)).1 :: fgetsChunksGo m (fgetsTake 99 (c :: t)).2 from rfl]
      rw [show fgetsChunks (c :: t) =
        (fgetsTake 99 (c :: t)).1 :: fgetsChunksGo t.length (fgetsTake 99 (c :: t)).2 by
          simp only [fgetsChunks, hlen]; rfl]
      have h1 : fgetsChunksGo m (fgetsTake 99 (c :: t)).2 = fgetsChunks (fgetsTake 99 (c :: t)).2 :=
        ih m (by omega) _ (by simp at hs; omega)
      have h2 : fgetsChunksGo t.length (fgetsTake 99 (c :: t)).2 =
          fgetsChunks (fgetsTake 99 (c :: t)).2 :=
        ih t.length (by omega) _ hrest
      rw [h1, h2]

theorem fgetsChunks_cons_eq (s : List Char) (hs : s ≠ []) :
    fgetsChunks s = (fgetsTake 99 s).1 :: fgetsChunksGo (s.length - 1) (fgetsTake 99 s).2 := by
  cases s with
  | nil => exact absurd rfl hs
  | cons c t =>
    simp only [fgetsChunks, List.length_cons, Nat.add_sub_cancel]
    rfl

theorem fgetsChunks_cons_line (body rest : List Char) (hlen : body.length + 1 ≤ 99)
    (hnl : ∀ c ∈ body, c ≠ '\n') :
    fgetsChunks ((body ++ ['\n']) ++ rest) = (body ++ ['\n']) :: fgetsChunks rest := by
  have hb : (body ++ ['\n']) ++ rest = body ++ '\n' :: rest := by simp
  rw [hb]
  have hne : body ++ '\n' :: rest ≠ [] := by simp
  rw [fgetsChunks_cons_eq _ hne, fgetsTake_line 99 body rest hlen hnl]
  have hlen2 : (body ++ '\n' :: rest).length - 1 = body.length + rest.length := by
    simp
  rw [hlen2]
  refine congrArg _ (fgetsChunksGo_fuel _ _ ?_)
  show rest.length ≤ body.length + rest.length
  omega

/-! ### The shape of one written line -/

theorem deviceLine_eq_body (d : Device) : deviceLine d = deviceBody d ++ ['\n'] := by
  simp [deviceLine, deviceBody]

theorem printfHex_no_newline (w n : Nat) (h : n < 16 ^ w) :
    ∀ c ∈ printfHex w n, c ≠ '\n' := by
  intro c hc
  simp only [printfHex, h, if_true] at hc
  exact hex_ne_newline (hexBE_all_hex w n c hc)

theorem printfUDec_no_newline (n : Nat) : ∀ c ∈ printfUDec n, c ≠ '\n' := by
  intro c hc
  exact hex_ne_newline (dec_isHex (printfUDec_all n c hc))

theorem printfInt_no_newline (i : Int) : ∀ c ∈ printfInt i, c ≠ '\n' := by
  intro c hc
  by_cases hneg : i < 0
  · simp only [printfInt, hneg, if_true, List.mem_cons] at hc
    rcases hc with h | h
    · subst h; decide
    · exact printfUDec_no_newline _ c h
  · simp only [printfInt, hneg, if_false] at hc
    exact printfUDec_no_newline _ c hc

theorem deviceBody_no_newline (d : Device)
    (h1 : d.vendor_id < 16 ^ 4) (h2 : d.device_id < 16 ^ 4) (h3 : d.domain < 16 ^ 4)
    (h4 : d.bus < 16 ^ 2) (h5 : d.dev < 16 ^ 2) :
    ∀ c ∈ deviceBody d, c ≠ '\n' := by
  intro c hc
  simp only [deviceBody, List.mem_append, List.mem_cons] at hc
  rcases hc with h | h | h | h | h | h | h | h | h | h | h | h | h
  · exact printfHex_no_newline 4 _ h1 c h
  · subst h; decide
  · exact printfHex_no_newline 4 _ h2 c h
  · subst h; decide
  · exact printfHex_no_newline 4 _ h3 c h
  · subst h; decide
  · exact printfHex_no_newline 2 _ h4 c h
  · subst h; decide
  · exact printfHex_no_newline 2 _ h5 c h
  · subst h; decide
  · exact printfUDec_no_newline _ c h
  · subst h; decide
  · exact printfInt_no_newline _ c h

/-! ### The read loop on written lines -/

theorem deviceLine_length_pos (d : Device) : 0 < (deviceLine d).length := by
  rw [deviceLine_eq_body]
  simp

theorem readLoop_write (gpus : List Device) (acc : List Device)
    (hlen : acc.length + gpus.length ≤ MAX_NR_CARDS)
    (hb : ∀ d ∈ gpus, RoundTripSafe d) :
    readLoop (gpus.map deviceLine) acc = acc ++ gpus.map persistDevice := by
  induction gpus generalizing acc with
  | nil => simp [readLoop]
  | cons d t ih =>
    obtain ⟨b1, b2, b3, b4, b5, _⟩ := hb d (List.mem_cons_self d t)
    have hacc : acc.length < MAX_NR_CARDS := by
      simp only [List.length_cons] at hlen
      omega
    have hstep : readLoop (deviceLine d :: List.map deviceLine t) acc =
        readLoop (List.map deviceLine t) (acc ++ [persistDevice d]) := by
      simp only [readLoop, if_pos hacc, if_pos (deviceLine_length_pos d),
        get_vars_deviceLine d b1 b2 b3 b4 b5]
    rw [List.map_cons, hstep, ih (acc ++ [persistDevice d])
      (by simp at hlen ⊢; omega)
      (fun x hx => hb x (List.mem_cons_of_mem d hx))]
    simp

theorem fgetsChunks_write (gpus : List Device) (hb : ∀ d ∈ gpus, RoundTripSafe d) :
    fgetsChunks (write_data_to_file gpus) = gpus.map deviceLine := by
  induction gpus with
  | nil => rfl
  | cons d t ih =>
    obtain ⟨b1, b2, b3, b4, b5, blen⟩ := hb d (List.mem_cons_self d t)
    have hwc : write_data_to_file (d :: t) = deviceLine d ++ write_data_to_file t := by
      simp [write_data_to_file]
    rw [hwc, deviceLine_eq_body]
    have hbodylen : (deviceBody d).length + 1 ≤ 99 := by
      rw [deviceLine_eq_body] at blen
      simp at blen
      omega
    rw [fgetsChunks_cons_line (deviceBody d) (write_data_to_file t) hbodylen
      (deviceBody_no_newline d b1 b2 b3 b4 b5)]
    rw [ih (fun x hx => hb x (List.mem_cons_of_mem d hx))]
    rw [List.map_cons, deviceLine_eq_body]

/-- C4 (amended): for an inventory of at most `MAX_NR_CARDS` devices whose
fields fit the serialized widths (4 hex digits for vendor/device/domain,
2 for bus/dev) and whose lines fit the reader's `fgets` buffer, reading the
file written by `write_data_to_file` back with `read_data_from_file`
succeeds (status 1) and yields the same devices in the same order with
every persisted field preserved; only the unpersisted
`has_connected_outputs` field is lost. -/
theorem C4_round_trip (gpus : List Device) (hlen : gpus.length ≤ MAX_NR_CARDS)
    (hb : ∀ d ∈ gpus, RoundTripSafe d) :
    read_data_from_file (some (write_data_to_file gpus)) =
      (1, gpus.map persistDevice, write_data_to_file gpus) ∧
    (gpus.map persistDevice).map persistedTuple = gpus.map persistedTuple := by
  constructor
  · simp only [read_data_from_file, fgetsChunks_write gpus hb]
    rw [readLoop_write gpus [] (by simpa using hlen) hb]
    simp
  · simp only [List.map_map]
    exact List.map_congr_left fun d _ => rfl

/-- Witness for C4 at a concrete two-device inventory. -/
theorem C4_round_trip_witness :
    read_data_from_file (some (write_data_to_file
      [⟨1, 0x8086, 0x1916, 0, 0, 2, 0, 1⟩, ⟨0, 0x10DE, 0x1140, 0, 1, 0, 0, -1⟩])) =
      (1, [⟨1, 0x8086, 0x1916, 0, 0, 2, 0, 0⟩, ⟨0, 0x10DE, 0x1140, 0, 1, 0, 0, 0⟩],
        write_data_to_file
          [⟨1, 0x8086, 0x1916, 0, 0, 2, 0, 1⟩, ⟨0, 0x10DE, 0x1140, 0, 1, 0, 0, -1⟩]) := by
  have h := (C4_round_trip
    [⟨1, 0x8086, 0x1916, 0, 0, 2, 0, 1⟩, ⟨0, 0x10DE, 0x1140, 0, 1, 0, 0, -1⟩]
    (by decide) (by decide)).1
  exact h

/-- Counterexample to C4 as stated: a device whose `bus` does not fit the
2-hex-digit field (`bus = 0x100`) is written as a line the reader rejects,
so the read-back inventory is empty, not equal to the original in its
persisted fields. -/
theorem C4_counterexample :
    (read_data_from_file (some (write_data_to_file
      [⟨0, 0, 0, 0, 0x100, 0, 0, 0⟩]))).2.1 = [] ∧
    ([] : List Device) ≠ [persistDevice ⟨0, 0, 0, 0, 0x100, 0, 0, 0⟩] := by
  constructor
  · decide
  · decide

/-! ### C6: first read of a missing state file -/

/-- C6: when the state file does not exist, `read_data_from_file` creates
it containing exactly the one all-zero sentinel record and returns 2
(created-for-the-first-time), yielding the one-record all-zero inventory;
and that sentinel inventory makes `has_system_changed` report true against
every non-empty inventory holding at least one device whose persisted
fields are not all zero. -/
theorem C6_first_read_sentinel :
    (read_data_from_file none = (2, [zeroDevice], zeroLine) ∧
      zeroLine = "0000:0000;0000:00:00:0;0\n".toList) ∧
    (∀ curr : List Device, curr ≠ [] →
      (∃ d ∈ curr, persistedTuple d ≠ persistedTuple zeroDevice) →
      has_system_changed [zeroDevice] curr = true) := by
  constructor
  · constructor
    · decide
    · decide
  · intro curr hne hex
    obtain ⟨d, hd, hdz⟩ := hex
    cases curr with
    | nil => exact absurd rfl hne
    | cons a t =>
      cases t with
      | nil =>
        simp only [List.mem_singleton] at hd
        subst hd
        simp only [has_system_changed, List.length_cons, List.length_nil,
          bne_self_eq_false, Bool.false_eq_true, if_false, List.zip_cons_cons,
          List.zip_nil_right, List.any_cons, List.any_nil, Bool.or_false]
        rw [devDiffers_eq, decide_eq_true_eq]
        exact fun h => hdz (by rw [h])
      | cons b t' =>
        simp [has_system_changed]

/-- Witness for C6's changed-system part at a concrete one-device current
inventory. -/
theorem C6_witness :
    has_system_changed [zeroDevice] [⟨1, 0x8086, 0x1916, 0, 0, 2, 0, 1⟩] = true :=
  C6_first_read_sentinel.2 [⟨1, 0x8086, 0x1916, 0, 0, 2, 0, 1⟩] (by decide)
    ⟨⟨1, 0x8086, 0x1916, 0, 0, 2, 0, 1⟩, by decide, by decide⟩

/-! ### C5: the MAX_NR_CARDS cap -/

theorem readLoop_length_le (chunks : List (List Char)) (acc : List Device)
    (h : acc.length ≤ MAX_NR_CARDS) : (readLoop chunks acc).length ≤ MAX_NR_CARDS := by
  induction chunks generalizing acc with
  | nil => simpa [readLoop]
  | cons l ls ih =>
    simp only [readLoop]
    by_cases h1 : acc.length < MAX_NR_CARDS
    · rw [if_pos h1]
      by_cases h2 : 0 < l.length
      · rw [if_pos h2]
        cases hg : get_vars l with
        | none => exact ih acc h
        | some d => exact ih (acc ++ [d]) (by simp; omega)
      · rw [if_neg h2]
        exact ih acc h
    · rw [if_neg h1]
      exact h

theorem get_current_devices_length_le (o : OutputsFacts) (pcis : List PciInfo)
    (acc : List Device) (h : acc.length ≤ MAX_NR_CARDS) :
    (get_current_devices o pcis acc).length ≤ MAX_NR_CARDS := by
  induction pcis generalizing acc with
  | nil => simpa [get_current_devices]
  | cons p ps ih =>
    simp only [get_current_devices]
    by_cases h1 : is_display_controller p = true
    · rw [if_pos h1]
      by_cases h2 : p.passthrough = true
      · rw [if_pos h2]
        exact ih acc h
      · rw [if_neg h2]
        by_cases h3 : MAX_NR_CARDS ≤ acc.length
        · rw [if_pos h3]
          exact h
        · rw [if_neg h3]
          exact ih (acc ++ [mkLiveDevice o p]) (by simp at h3 ⊢; omega)
    · rw [if_neg h1]
      exact ih acc h

/-- C5's failing input, evaluated: on an inventory already holding
`MAX_NR_CARDS` cards, `add_gpu_from_file` on a well-formed marker file name
appends an 11th record — the C code stores through `cards[10]`, past the
end of the 10-element array, and leaves `nr_cards = 11`.  (The guarded
appenders `readLoop`/`get_current_devices` do preserve the cap, see
`readLoop_length_le` and `get_current_devices_length_le`.) -/
theorem C5_add_gpu_overflow :
    (add_gpu_from_file ("/run/u-d-c-gpu-0000:01:00.0-0x10de-0x1140".toList)
        ("/run".toList) (List.replicate MAX_NR_CARDS zeroDevice)).length =
      MAX_NR_CARDS + 1 := by
  decide

/-! ### Substring characterizations (`strstr` / `istrstr`) -/

theorem isPrefixOf_iff_exists (p s : List Char) :
    p.isPrefixOf s = true ↔ ∃ post, p ++ post = s := by
  induction p generalizing s with
  | nil => simp [List.isPrefixOf]
  | cons a as ih =>
    cases s with
    | nil => simp [List.isPrefixOf]
    | cons b bs =>
      simp only [List.isPrefixOf, Bool.and_eq_true, beq_iff_eq, ih, List.cons_append,
        List.cons.injEq]
      constructor
      · rintro ⟨rfl, post, rfl⟩
        exact ⟨post, rfl, rfl⟩
      · rintro ⟨post, rfl, rfl⟩
        exact ⟨rfl, post, rfl⟩

theorem strstrB_iff (s pat : List Char) :
    strstrB s pat = true ↔ ∃ pre post, pre ++ pat ++ post = s := by
  induction s with
  | nil =>
    simp only [strstrB, List.isEmpty_iff]
    constructor
    · intro h
      exact ⟨[], [], by simp [h]⟩
    · rintro ⟨pre, post, he⟩
      have hlen := congrArg List.length he
      simp only [List.length_append, List.length_nil] at hlen
      exact List.length_eq_zero.mp (by omega)
  | cons c t ih =>
    simp only [strstrB, Bool.or_eq_true, isPrefixOf_iff_exists, ih]
    constructor
    · rintro (⟨post, he⟩ | ⟨pre, post, he⟩)
      · exact ⟨[], post, by simp [he]⟩
      · exact ⟨c :: pre, post, by simp [← he]⟩
    · rintro ⟨pre, post, he⟩
      cases pre with
      | nil =>
        left
        exact ⟨post, by simpa using he⟩
      | cons x xs =>
        right
        simp only [List.cons_append, List.cons.injEq] at he
        exact ⟨xs, post, he.2⟩

theorem strstrB_append_split (s p q : List Char) (h : strstrB s (p ++ q) = true) :
    strstrB s p = true := by
  rw [strstrB_iff] at h ⊢
  obtain ⟨pre, post, he⟩ := h
  exact ⟨pre, q ++ post, by simpa using he⟩

theorem containsI_ondemand_on (l : List Char)
    (h : containsI l "on-demand".toList = true) : containsI l "on".toList = true := by
  unfold containsI at h ⊢
  have h1 : "on-demand".toList.map upChar =
      "on".toList.map upChar ++ "-demand".toList.map upChar := by decide
  rw [h1] at h
  exact strstrB_append_split _ _ _ h

/-! ### C7: the PRIME settings mapping and auto-creation -/

/-- C7 (amended): `get_prime_action` inspects only the first `fgets`
chunk of the settings file and maps it by case-insensitive SUBSTRING
matching, not equality: ONDEMAND when it contains `on-demand`, ON when it
contains `on` but not `on-demand`, OFF otherwise; and `enable_prime`
auto-creates the settings file with content `on` when it is absent or
empty, before reading the mode (so the run proceeds as mode ON). -/
theorem C7_prime_action (s : List Char) (hs : s ≠ []) :
    ((get_prime_action s = PrimeMode.ONDEMAND ↔
        containsI (fgetsTake 99 s).1 "on-demand".toList = true) ∧
      (get_prime_action s = PrimeMode.ON ↔
        (containsI (fgetsTake 99 s).1 "on".toList = true ∧
          containsI (fgetsTake 99 s).1 "on-demand".toList = false)) ∧
      (get_prime_action s = PrimeMode.OFF ↔
        containsI (fgetsTake 99 s).1 "on".toList = false)) ∧
    (∀ env : PrimeEnv, exists_not_empty env.settings = false → env.createOk = true →
      (enable_prime env).1 =
        Action.createSettings :: Action.createPrimeOutputclass ::
          Action.removeOffloadServerlayout :: Action.disablePM ::
          (if env.loadedSeq 0 then [] else [Action.load "nvidia"]) ∧
      (enable_prime env).2 = true) := by
  constructor
  · have hne : s.isEmpty = false := by
      cases s with
      | nil => exact absurd rfl hs
      | cons a t => rfl
    have hg : get_prime_action s =
        (if containsI (fgetsTake 99 s).1 "on-demand".toList then PrimeMode.ONDEMAND
         else if containsI (fgetsTake 99 s).1 "on".toList then PrimeMode.ON
         else PrimeMode.OFF) := by
      simp only [get_prime_action, hne, Bool.false_eq_true, if_false]
    rw [hg]
    have bool_tf : ∀ {b : Bool}, b = true → b = false → False := by
      intro b hx hy
      rw [hx] at hy
      exact Bool.noConfusion hy
    by_cases h1 : containsI (fgetsTake 99 s).1 "on-demand".toList = true
    · have h2 := containsI_ondemand_on _ h1
      rw [if_pos h1]
      refine ⟨iff_of_true rfl h1, ?_, ?_⟩
      · exact iff_of_false (by decide) fun hc => bool_tf h1 hc.2
      · exact iff_of_false (by decide) fun hc => bool_tf h2 hc
    · rw [if_neg h1]
      rw [Bool.not_eq_true] at h1
      by_cases h2 : containsI (fgetsTake 99 s).1 "on".toList = true
      · rw [if_pos h2]
        refine ⟨iff_of_false (by decide) fun hc => bool_tf hc h1, ?_, ?_⟩
        · exact iff_of_true rfl ⟨h2, h1⟩
        · exact iff_of_false (by decide) fun hc => bool_tf h2 hc
      · rw [if_neg h2]
        rw [Bool.not_eq_true] at h2
        refine ⟨iff_of_false (by decide) fun hc => bool_tf hc h1, ?_, ?_⟩
        · exact iff_of_false (by decide) fun hc => bool_tf hc.1 h2
        · exact iff_of_true rfl h2
  · intro env hmiss hcreate
    have hmode : get_prime_action ("on\n".toList) = PrimeMode.ON := by decide
    simp only [enable_prime, hmiss, Bool.false_eq_true, if_false, hcreate, if_true,
      enablePrimeWithSettings, hmode]
    exact ⟨by simp, trivial⟩

/-- Witness for C7 at concrete contents: `on-demand` maps to ONDEMAND,
`on` to ON, `off` to OFF, and an absent settings file is created and
handled as ON. -/
theorem C7_witness :
    get_prime_action ("on-demand\n".toList) = PrimeMode.ONDEMAND ∧
    get_prime_action ("on\n".toList) = PrimeMode.ON ∧
    get_prime_action ("off\n".toList) = PrimeMode.OFF ∧
    (enable_prime ⟨none, true, false, fun _ => true, fun _ => true, true⟩).1 =
      [Action.createSettings, Action.createPrimeOutputclass,
        Action.removeOffloadServerlayout, Action.disablePM] := by
  refine ⟨?_, ?_, ?_, ?_⟩
  · exact ((C7_prime_action ("on-demand\n".toList) (by decide)).1.1).mpr (by decide)
  · exact ((C7_prime_action ("on\n".toList) (by decide)).1.2.1).mpr (by decide)
  · exact ((C7_prime_action ("off\n".toList) (by decide)).1.2.2).mpr (by decide)
  · have h := (C7_prime_action ("x".toList) (by decide)).2
      ⟨none, true, false, fun _ => true, fun _ => true, true⟩ (by decide) (by decide)
    rw [h.1]
    rfl

/-- Counterexample to C7 as stated: the content `con` is neither `on` nor
`on-demand`, so the claim maps it to OFF, but `get_prime_action` returns ON
because `istrstr` finds `on` inside `con`. -/
theorem C7_counterexample :
    get_prime_action ("con\n".toList) = PrimeMode.ON ∧
    get_prime_action ("con\n".toList) ≠ PrimeMode.OFF := by
  decide

/-! ### C2/C3: the off branch and the reclaim protocol -/

theorem offPass1_full (env : PrimeEnv) :
    ((offPass1 env 0 0).2 = false ↔
      (env.dryRun = false ∧ env.loadedSeq 0 = true ∧ env.unloadSeq 0 = false ∧
       env.loadedSeq 1 = true ∧ env.killOk = true ∧ env.loadedSeq 2 = true ∧
       env.unloadSeq 1 = false ∧ env.loadedSeq 3 = true)) ∧
    ((offPass1 env 0 0).2 = true → Action.enablePM ∈ (offPass1 env 0 0).1) ∧
    ((offPass1 env 0 0).2 = false → Action.enablePM ∉ (offPass1 env 0 0).1) ∧
    (offPass1 env 0 0).1.count Action.kill ≤ 1 ∧
    (offPass1 env 0 0).1.count (Action.unload "nvidia") ≤ 2 ∧
    ((offPass1 env 0 0).2 = false →
      (offPass1 env 0 0).1.count (Action.unload "nvidia") = 2 ∧
      (offPass1 env 0 0).1.count Action.kill = 1) := by
  cases hdry : env.dryRun with
  | true =>
    cases hl0 : env.loadedSeq 0 with
    | true =>
      simp_all [offPass1, offPass2, primeUnloadResult, primeKillResult, unloadNvidiaEvents]
    | false =>
      simp_all [offPass1, offPass2, primeUnloadResult, primeKillResult, unloadNvidiaEvents]
  | false =>
    cases hl0 : env.loadedSeq 0 with
    | false =>
      simp_all [offPass1, offPass2, primeUnloadResult, primeKillResult, unloadNvidiaEvents]
    | true =>
      cases hu0 : env.unloadSeq 0 with
      | true =>
        simp_all [offPass1, offPass2, primeUnloadResult, primeKillResult, unloadNvidiaEvents]
      | false =>
        cases hl1 : env.loadedSeq 1 with
        | false =>
          simp_all [offPass1, offPass2, primeUnloadResult, primeKillResult, unloadNvidiaEvents]
        | true =>
          cases hk : env.killOk with
          | false =>
            simp_all [offPass1, offPass2, primeUnloadResult, primeKillResult, unloadNvidiaEvents]
          | true =>
            cases hl2 : env.loadedSeq 2 with
            | false =>
              simp_all [offPass1, offPass2, primeUnloadResult, primeKillResult,
                unloadNvidiaEvents]
            | true =>
              cases hu1 : env.unloadSeq 1 with
              | true =>
                simp_all [offPass1, offPass2, primeUnloadResult, primeKillResult,
                  unloadNvidiaEvents]
              | false =>
                cases hl3 : env.loadedSeq 3 with
                | false =>
                  simp_all [offPass1, offPass2, primeUnloadResult, primeKillResult,
                    unloadNvidiaEvents]
                | true =>
                  simp_all [offPass1, offPass2, primeUnloadResult, primeKillResult,
                    unloadNvidiaEvents]

theorem enable_prime_off_eq (env : PrimeEnv)
    (h1 : exists_not_empty env.settings = true)
    (h2 : get_prime_action (env.settings.getD []) = PrimeMode.OFF) :
    enable_prime env =
      (Action.removePrimeOutputclass :: Action.removeOffloadServerlayout ::
        (offPass1 env 0 0).1, (offPass1 env 0 0).2) := by
  simp only [enable_prime, h1, if_true, enablePrimeWithSettings, h2]

/-- C2 (amended): in the PRIME-mode off branch both generated Xorg
fragments are removed first and the reclaim protocol is run, but
`enable_power_management` is invoked only on the paths that do NOT fail
terminally: when the second unload attempt also fails with the module still
loaded, `enable_prime` returns false WITHOUT setting power management to
auto-suspend.  The failure condition is characterized exactly. -/
theorem C2_off_branch (env : PrimeEnv)
    (h1 : exists_not_empty env.settings = true)
    (h2 : get_prime_action (env.settings.getD []) = PrimeMode.OFF) :
    (enable_prime env).1 =
      Action.removePrimeOutputclass :: Action.removeOffloadServerlayout ::
        (offPass1 env 0 0).1 ∧
    ((enable_prime env).2 = true → Action.enablePM ∈ (enable_prime env).1) ∧
    ((enable_prime env).2 = false → Action.enablePM ∉ (enable_prime env).1) ∧
    ((enable_prime env).2 = false ↔
      (env.dryRun = false ∧ env.loadedSeq 0 = true ∧ env.unloadSeq 0 = false ∧
       env.loadedSeq 1 = true ∧ env.killOk = true ∧ env.loadedSeq 2 = true ∧
       env.unloadSeq 1 = false ∧ env.loadedSeq 3 = true)) := by
  obtain ⟨hiff, htrue, hfalse, _, _, _⟩ := offPass1_full env
  rw [enable_prime_off_eq env h1 h2]
  refine ⟨rfl, ?_, ?_, ?_⟩
  · intro h
    exact List.mem_cons_of_mem _ (List.mem_cons_of_mem _ (htrue h))
  · intro h
    have hni := hfalse h
    intro hmem
    simp only [List.mem_cons] at hmem
    rcases hmem with h' | h' | h'
    · exact Action.noConfusion h'
    · exact Action.noConfusion h'
    · exact hni h'
  · exact hiff

/-- Counterexample to C2 as stated: with the module loaded, every unload
failing and the session kill succeeding, the off branch gives up after the
retry and returns false without ever invoking `enable_power_management`. -/
theorem C2_counterexample :
    (enable_prime ⟨some ("off\n".toList), true, false, fun _ => true,
        fun _ => false, true⟩).2 = false ∧
    Action.enablePM ∉ (enable_prime ⟨some ("off\n".toList), true, false,
        fun _ => true, fun _ => false, true⟩).1 := by
  decide

/-- Witness for C2 at a concrete environment where the unload succeeds
immediately: the branch removes both fragments and ends in
`enable_power_management`. -/
theorem C2_witness :
    (enable_prime ⟨some ("off\n".toList), true, false, fun _ => true,
        fun _ => true, true⟩).1 =
      Action.removePrimeOutputclass :: Action.removeOffloadServerlayout ::
        (offPass1 ⟨some ("off\n".toList), true, false, fun _ => true,
          fun _ => true, true⟩ 0 0).1 ∧
    Action.enablePM ∈ (enable_prime ⟨some ("off\n".toList), true, false,
        fun _ => true, fun _ => true, true⟩).1 := by
  have h := C2_off_branch ⟨some ("off\n".toList), true, false, fun _ => true,
    fun _ => true, true⟩ (by decide) (by decide)
  exact ⟨h.1, h.2.1 (by decide)⟩

/-- C3: over every environment, the off-branch reclaim protocol invokes
`kill_main_display_session` at most once and attempts `unload_nvidia` at
most twice; and in the always-failing-unload scenario (module stays
loaded, kill succeeds) it makes exactly two attempts and one kill and
reports terminal failure. -/
theorem C3_reclaim_bounds :
    (∀ env : PrimeEnv, (enable_prime env).1.count Action.kill ≤ 1 ∧
      (enable_prime env).1.count (Action.unload "nvidia") ≤ 2) ∧
    (∀ env : PrimeEnv, env.dryRun = false → (∀ k, env.loadedSeq k = true) →
      (∀ k, env.unloadSeq k = false) → env.killOk = true →
      exists_not_empty env.settings = true →
      get_prime_action (env.settings.getD []) = PrimeMode.OFF →
      (enable_prime env).1.count (Action.unload "nvidia") = 2 ∧
      (enable_prime env).1.count Action.kill = 1 ∧
      (enable_prime env).2 = false) := by
  have hcount2 : ∀ env : PrimeEnv,
      (Action.removePrimeOutputclass :: Action.removeOffloadServerlayout ::
        (offPass1 env 0 0).1).count Action.kill = (offPass1 env 0 0).1.count Action.kill ∧
      (Action.removePrimeOutputclass :: Action.removeOffloadServerlayout ::
        (offPass1 env 0 0).1).count (Action.unload "nvidia") =
        (offPass1 env 0 0).1.count (Action.unload "nvidia") := by
    intro env
    constructor
    · rw [List.count_cons_of_ne (by decide), List.count_cons_of_ne (by decide)]
    · rw [List.count_cons_of_ne (by decide), List.count_cons_of_ne (by decide)]
  constructor
  · intro env
    by_cases hex : exists_not_empty env.settings = true
    · cases hm : get_prime_action (env.settings.getD []) with
      | ON =>
        have he : enable_prime env =
            ([Action.createPrimeOutputclass, Action.removeOffloadServerlayout,
              Action.disablePM] ++
              (if env.loadedSeq 0 then [] else [Action.load "nvidia"]), true) := by
          simp only [enable_prime, hex, if_true, enablePrimeWithSettings, hm]
        rw [he]
        by_cases hl : env.loadedSeq 0 = true <;> simp [hl]
      | OFF =>
        obtain ⟨_, _, _, hk1, hu2, _⟩ := offPass1_full env
        rw [enable_prime_off_eq env hex hm]
        exact ⟨(hcount2 env).1 ▸ hk1, (hcount2 env).2 ▸ hu2⟩
      | ONDEMAND =>
        have he : enable_prime env =
            ([Action.createOffloadServerlayout, Action.removePrimeOutputclass,
              Action.enablePM] ++
              (if env.loadedSeq 0 then [] else [Action.load "nvidia"]), true) := by
          simp only [enable_prime, hex, if_true, enablePrimeWithSettings, hm]
        rw [he]
        by_cases hl : env.loadedSeq 0 = true <;> simp [hl]
    · by_cases hcr : env.createOk = true
      · have hmode : get_prime_action ("on\n".toList) = PrimeMode.ON := by decide
        have he : enable_prime env =
            (Action.createSettings :: ([Action.createPrimeOutputclass,
              Action.removeOffloadServerlayout, Action.disablePM] ++
              (if env.loadedSeq 0 then [] else [Action.load "nvidia"])), true) := by
          simp only [enable_prime, hex, Bool.false_eq_true, if_false, hcr, if_true,
            enablePrimeWithSettings, hmode]
        rw [he]
        by_cases hl : env.loadedSeq 0 = true <;> simp [hl]
      · have he : enable_prime env = ([Action.createSettings], false) := by
          simp only [enable_prime, hex, Bool.false_eq_true, if_false, hcr]
        rw [he]
        simp
  · intro env hdry hload hunload hkill hex hmode
    obtain ⟨hiff, _, _, _, _, hexact⟩ := offPass1_full env
    have hfail : (offPass1 env 0 0).2 = false :=
      hiff.mpr ⟨hdry, hload 0, hunload 0, hload 1, hkill, hload 2, hunload 1, hload 3⟩
    obtain ⟨hcu, hck⟩ := hexact hfail
    rw [enable_prime_off_eq env hex hmode]
    exact ⟨(hcount2 env).2 ▸ hcu, (hcount2 env).1 ▸ hck, hfail⟩

/-- Witness for C3 at a concrete always-failing environment. -/
theorem C3_witness :
    (enable_prime ⟨some ("off\n".toList), true, false, fun _ => true,
        fun _ => false, true⟩).1.count (Action.unload "nvidia") = 2 ∧
    (enable_prime ⟨some ("off\n".toList), true, false, fun _ => true,
        fun _ => false, true⟩).1.count Action.kill = 1 ∧
    (enable_prime ⟨some ("off\n".toList), true, false, fun _ => true,
        fun _ => false, true⟩).2 = false :=
  C3_reclaim_bounds.2 ⟨some ("off\n".toList), true, false, fun _ => true,
    fun _ => false, true⟩ rfl (fun _ => rfl) (fun _ => rfl) rfl (by decide) (by decide)

/-! ### C8: the output connectivity prober -/

theorem find?_eq_of_first {α : Type} (l : List α) (p : α → Bool) (i : Nat)
    (hi : i < l.length) (hp : p l[i] = true)
    (hfirst : ∀ j, j < i → ∀ hj : j < l.length, p l[j] = false) :
    l.find? p = some l[i] := by
  induction l generalizing i with
  | nil => simp at hi
  | cons a t ih =>
    cases i with
    | zero =>
      simp only [List.getElem_cons_zero] at hp ⊢
      simp [List.find?, hp]
    | succ n =>
      have ha : p a = false := by
        have := hfirst 0 (by omega) (by simp)
        simpa using this
      simp only [List.getElem_cons_succ] at hp ⊢
      rw [List.find?_cons_of_neg _ (by simp [ha])]
      refine ih n (by simpa using hi) hp ?_
      intro j hj hjl
      have := hfirst (j + 1) (by omega) (by simp; omega)
      simpa using this

theorem matchesDriver_false_iff (driver : List Char) (c : DrmCard) :
    matchesDriver driver c = false ↔
      ("card".toList.isPrefixOf c.name = true → strstrB c.versionName driver = false) := by
  unfold matchesDriver
  cases hpre : "card".toList.isPrefixOf c.name <;>
    cases hinf : strstrB c.versionName driver <;>
    simp

/-- C8: `has_driver_connected_outputs` returns the unknown value `-1`
exactly when no `/dev/dri/card*` node's driver identity contains the
requested driver name as a case-sensitive substring; otherwise, for the
first matching node, it returns the definite boolean (1/0) of whether that
node has a positive number of connected connectors.  The result is always
one of `-1`, `0`, `1`. -/
theorem C8_connected_outputs (env : DrmEnv) (driver : List Char) :
    (has_driver_connected_outputs env driver = -1 ↔
      ∀ c ∈ env.driCards, "card".toList.isPrefixOf c.name = true →
        strstrB c.versionName driver = false) ∧
    (∀ i, ∀ hi : i < env.driCards.length,
      matchesDriver driver env.driCards[i] = true →
      (∀ j, j < i → ∀ hj : j < env.driCards.length,
        matchesDriver driver env.driCards[j] = false) →
      has_driver_connected_outputs env driver =
        if 0 < count_connected_outputs env env.driCards[i].name then 1 else 0) ∧
    (has_driver_connected_outputs env driver = -1 ∨
      has_driver_connected_outputs env driver = 0 ∨
      has_driver_connected_outputs env driver = 1) := by
  refine ⟨?_, ?_, ?_⟩
  · cases hfind : env.driCards.find? (matchesDriver driver) with
    | none =>
      simp only [has_driver_connected_outputs, hfind]
      refine iff_of_true trivial ?_
      intro c hc
      have := List.find?_eq_none.mp hfind c hc
      rw [Bool.not_eq_true] at this
      exact (matchesDriver_false_iff driver c).mp this
    | some c =>
      simp only [has_driver_connected_outputs, hfind]
      have hmem := List.mem_of_find?_eq_some hfind
      have hp := List.find?_some hfind
      refine iff_of_false ?_ ?_
      · by_cases h0 : 0 < count_connected_outputs env c.name <;> simp [h0]
      · intro hall
        have := (matchesDriver_false_iff driver c).mpr (hall c hmem)
        rw [this] at hp
        exact Bool.noConfusion hp
  · intro i hi hp hfirst
    have hfind := find?_eq_of_first env.driCards (matchesDriver driver) i hi hp hfirst
    simp only [has_driver_connected_outputs, hfind]
  · cases hfind : env.driCards.find? (matchesDriver driver) with
    | none => simp [has_driver_connected_outputs, hfind]
    | some c =>
      simp only [has_driver_connected_outputs, hfind]
      by_cases h0 : 0 < count_connected_outputs env c.name <;> simp [h0]

/-- Witness for C8 at a concrete DRM world: a bound driver with one
connected connector reports 1; an unbound driver reports unknown (-1). -/
theorem C8_witness :
    has_driver_connected_outputs
      ⟨[⟨"card0".toList, "i915".toList⟩, ⟨"card1".toList, "nvidia-drm".toList⟩],
       [⟨"card1-HDMI-1".toList, ["connected\n".toList]⟩]⟩ "nvidia".toList = 1 ∧
    has_driver_connected_outputs
      ⟨[⟨"card0".toList, "i915".toList⟩, ⟨"card1".toList, "nvidia-drm".toList⟩],
       [⟨"card1-HDMI-1".toList, ["connected\n".toList]⟩]⟩ "nouveau".toList = -1 := by
  constructor
  · have h := (C8_connected_outputs
      ⟨[⟨"card0".toList, "i915".toList⟩, ⟨"card1".toList, "nvidia-drm".toList⟩],
       [⟨"card1-HDMI-1".toList, ["connected\n".toList]⟩]⟩ "nvidia".toList).2.1
      1 (by decide) (by decide) ?_
    · rw [h]
      decide
    · intro j hj hjl
      have hj0 : j = 0 := by omega
      subst hj0
      exact (by decide :
        matchesDriver "nvidia".toList ⟨"card0".toList, "i915".toList⟩ = false)
  · exact (C8_connected_outputs
      ⟨[⟨"card0".toList, "i915".toList⟩, ⟨"card1".toList, "nvidia-drm".toList⟩],
       [⟨"card1-HDMI-1".toList, ["connected\n".toList]⟩]⟩ "nouveau".toList).1.mpr
      (by decide)

/-! ### C10: `unload_nvidia` -/

/-- C10: `unload_nvidia` performs the three dependent unloads
(`nvidia-drm`, `nvidia-uvm`, `nvidia-modeset`) strictly before the base
`nvidia` unload; its return value is exactly the base unload's result, and
it does not depend on how the dependent unloads fare. -/
theorem C10_unload_nvidia (env : ModuleEnv) :
    (unload_nvidia env).1 =
      [Action.unload "nvidia-drm", Action.unload "nvidia-uvm",
       Action.unload "nvidia-modeset", Action.unload "nvidia"] ∧
    (unload_nvidia env).2 = (unload_module env "nvidia").2 ∧
    (∀ env' : ModuleEnv, env'.dryRun = env.dryRun →
      env'.unloadOk "nvidia" = env.unloadOk "nvidia" →
      (unload_nvidia env').2 = (unload_nvidia env).2) := by
  refine ⟨rfl, rfl, ?_⟩
  intro env' h1 h2
  simp [unload_nvidia, unload_module, act_upon_module, h1, h2]

/-- Witness for C10: two environments that disagree on every dependent
module's unload result but agree on the base module produce the same
return value. -/
theorem C10_witness :
    (unload_nvidia ⟨false, fun m => m == "nvidia", fun _ => false⟩).2 =
      (unload_nvidia ⟨false, fun m => !(m == "nvidia-drm"), fun _ => true⟩).2 :=
  (C10_unload_nvidia ⟨false, fun m => !(m == "nvidia-drm"), fun _ => true⟩).2.2
    ⟨false, fun m => m == "nvidia", fun _ => false⟩ rfl (by decide)

/-! ### C9: the persisted file never holds marker-recovered devices -/

theorem mainTail_no_write (env : MainEnv) (cur : List Device) (offl : Bool) :
    ∀ inv, MEvent.writeNewBoot inv ∉ mainTail env cur offl := by
  intro inv
  unfold mainTail
  iterate 20 (all_goals (first | split | (try simp_all)))

theorem mainEvents_split (env : MainEnv) (cur : List Device) (offl : Bool)
    (hcur : currentOf env = some (cur, offl)) :
    mainEvents env =
      (if !offl && !env.dryRun then [MEvent.unlinkOffloading] else []) ++
        MEvent.readLast :: MEvent.writeNewBoot cur :: mainTail env cur offl := by
  simp only [mainEvents, hcur]

theorem write_before_aux (p t : List MEvent) (cur : List Device)
    (hp : MEvent.findDisabled ∉ p) (k : Nat)
    (hk : k < (p ++ MEvent.writeNewBoot cur :: t).length)
    (hke : (p ++ MEvent.writeNewBoot cur :: t)[k] = MEvent.findDisabled) :
    ∃ j, ∃ _ : j < (p ++ MEvent.writeNewBoot cur :: t).length,
      j < k ∧ (p ++ MEvent.writeNewBoot cur :: t)[j] = MEvent.writeNewBoot cur := by
  have hjlen : p.length < (p ++ MEvent.writeNewBoot cur :: t).length := by simp
  have hwrite : (p ++ MEvent.writeNewBoot cur :: t)[p.length] =
      MEvent.writeNewBoot cur := by
    rw [List.getElem_append_right (le_refl p.length)]
    simp
  refine ⟨p.length, hjlen, ?_, hwrite⟩
  rcases Nat.lt_trichotomy k p.length with hlt | heq | hgt
  · exfalso
    rw [List.getElem_append_left hlt] at hke
    exact hp (hke ▸ List.getElem_mem hlt)
  · exfalso
    subst heq
    rw [hwrite] at hke
    exact MEvent.noConfusion hke
  · exact hgt

/-- C9: in every modelled run of `main`, the only `write_data_to_file`
event on the new-boot file carries exactly the enumerated (live or
fake-file) inventory, and any `find_disabled_cards` merge of marker-file
devices happens strictly after that write — so the persisted state never
contains disabled-card records. -/
theorem C9_persist_before_merge (env : MainEnv) (cur : List Device) (offl : Bool)
    (hcur : currentOf env = some (cur, offl)) :
    (∀ inv, MEvent.writeNewBoot inv ∈ mainEvents env → inv = cur) ∧
    (∀ k, ∀ hk : k < (mainEvents env).length,
      (mainEvents env)[k] = MEvent.findDisabled →
      ∃ j, ∃ _ : j < (mainEvents env).length, j < k ∧
        (mainEvents env)[j] = MEvent.writeNewBoot cur) := by
  have heq := mainEvents_split env cur offl hcur
  have hnw := mainTail_no_write env cur offl
  set t := mainTail env cur offl with ht
  have hassoc : mainEvents env =
      ((if !offl && !env.dryRun then [MEvent.unlinkOffloading] else []) ++
        [MEvent.readLast]) ++ MEvent.writeNewBoot cur :: t := by
    rw [heq]
    simp
  have hpre : MEvent.findDisabled ∉
      ((if !offl && !env.dryRun then [MEvent.unlinkOffloading] else []) ++
        [MEvent.readLast]) := by
    by_cases hc : (!offl && !env.dryRun) = true <;> simp [hc]
  constructor
  · intro inv hmem
    rw [heq] at hmem
    simp only [List.mem_append, List.mem_cons] at hmem
    rcases hmem with h | h | h | h
    · exfalso
      by_cases hc : (!offl && !env.dryRun) = true
      · rw [if_pos hc] at h
        simp at h
      · rw [if_neg hc] at h
        simp at h
    · exact MEvent.noConfusion h
    · injection h
    · exact absurd h (hnw inv)
  · intro k hk hke
    simp only [hassoc] at hk hke ⊢
    exact write_before_aux _ t cur hpre k hk hke

/-- Witness for C9 at a concrete PRIME-laptop run (fake lspci data, one
Intel boot card, offloading faked, marker file for the discrete NVIDIA
card): the trace writes the enumerated inventory before merging. -/
theorem C9_witness :
    (∀ inv, MEvent.writeNewBoot inv ∈ mainEvents
        ⟨some (some ("8086:1916;0000:00:02:0;1\n".toList)), none, true,
          some ("0000:0000;0000:00:00:0;0\n".toList), true, false,
          true, false, true, false, true, false, false, false,
          "/run".toList, ["u-d-c-gpu-0000:01:00.0-0x10de-0x1140".toList], true⟩ →
      inv = [⟨1, 0x8086, 0x1916, 0, 0, 2, 0, -1⟩]) ∧
    (∀ k, ∀ hk : k < (mainEvents
        ⟨some (some ("8086:1916;0000:00:02:0;1\n".toList)), none, true,
          some ("0000:0000;0000:00:00:0;0\n".toList), true, false,
          true, false, true, false, true, false, false, false,
          "/run".toList, ["u-d-c-gpu-0000:01:00.0-0x10de-0x1140".toList], true⟩).length,
      (mainEvents
        ⟨some (some ("8086:1916;0000:00:02:0;1\n".toList)), none, true,
          some ("0000:0000;0000:00:00:0;0\n".toList), true, false,
          true, false, true, false, true, false, false, false,
          "/run".toList, ["u-d-c-gpu-0000:01:00.0-0x10de-0x1140".toList], true⟩)[k] =
          MEvent.findDisabled →
      ∃ j, ∃ _ : j < (mainEvents
        ⟨some (some ("8086:1916;0000:00:02:0;1\n".toList)), none, true,
          some ("0000:0000;0000:00:00:0;0\n".toList), true, false,
          true, false, true, false, true, false, false, false,
          "/run".toList, ["u-d-c-gpu-0000:01:00.0-0x10de-0x1140".toList], true⟩).length,
        j < k ∧ (mainEvents
        ⟨some (some ("8086:1916;0000:00:02:0;1\n".toList)), none, true,
          some ("0000:0000;0000:00:00:0;0\n".toList), true, false,
          true, false, true, false, true, false, false, false,
          "/run".toList, ["u-d-c-gpu-0000:01:00.0-0x10de-0x1140".toList], true⟩)[j] =
          MEvent.writeNewBoot [⟨1, 0x8086, 0x1916, 0, 0, 2, 0, -1⟩]) :=
  C9_persist_before_merge
    ⟨some (some ("8086:1916;0000:00:02:0;1\n".toList)), none, true,
      some ("0000:0000;0000:00:00:0;0\n".toList), true, false,
      true, false, true, false, true, false, false, false,
      "/run".toList, ["u-d-c-gpu-0000:01:00.0-0x10de-0x1140".toList], true⟩
    [⟨1, 0x8086, 0x1916, 0, 0, 2, 0, -1⟩] true (by decide)

end GpuManager
